import Mathlib

/-!
# Order / stock consistency of the storefront backend

A shallow embedding of the order routes of `src/server.js` together with the
two document schemas `src/server/models/Product.js` and
`src/server/models/Order.js`.

Modelling conventions

* A collection of the document store is a list of documents; `find` returns
  the first document carrying an identifier, `save` on a fetched document
  rewrites the document(s) carrying its identifier, `insert` stores a new one.
* Documents are keyed by an `ObjectId`.  `findById` receives a string, which
  the driver first casts to an `ObjectId`; a string that does not cast makes
  `findById` throw, and the handlers answer 500 from their `catch` branch.  The
  cast belongs to the driver, not to this repository: it is a parameter `cast`
  of the model, and every theorem holds for every cast.  The examples use
  `hexObjectId` (24 hexadecimal digits, read without regard to case).
* `stock` and `qty` are JavaScript numbers.  The model covers the finite
  integer-valued ones and represents them by `Int`; `stock -= qty` and
  `stock += qty` round the exact result to the nearest double, ties to even
  (`roundDouble`), so results are exact up to magnitude `2 ^ 53` and rounded
  above.  Fractional quantities and results of magnitude `2 ^ 1024` or more
  (`Infinity`) are outside the model.  The routes validate neither sign nor
  size, so negative and very large values are representable.  The money fields
  (`price`, `subtotal`, ...) are carried along and never computed on.
* The identifier given to a new order and the clock (`Date.now`) are produced
  outside the handlers; they are parameters of the handlers.
* Every handler is a function from the store before the request to the HTTP
  response and the store after it; requests are handled one at a time.
  Storage failures are not part of the model, and neither are request bodies
  whose `productId` or `status` is not a string.
* `PUT /api/admin/orders/:id` is modelled from the point where the `auth`
  middleware has accepted the token.
-/

namespace Zikriya

/-! ## JavaScript numbers -/

/-- `Number.MAX_SAFE_INTEGER`, that is `2 ^ 53 - 1`. -/
def maxSafeInteger : Int := 9007199254740991

/-- Number of low-order bits that a natural number `a` loses when it is written
with a significand of 53 bits: none below `2 ^ 53`, otherwise one more than
`a / 2` loses.  The first argument bounds the number of halvings; `a` itself
is always enough. -/
def lostBits : Nat → Nat → Nat
  | 0, _ => 0
  | fuel + 1, a => if a < 2 ^ 53 then 0 else lostBits fuel (a / 2) + 1

/-- The double nearest to the natural number `a`, ties going to the even
significand (IEEE 754 round-to-nearest-even at 53 bits of precision). -/
def roundNat (a : Nat) : Nat :=
  if a < 2 ^ 53 then a
  else
    let e := lostBits a a
    let q := a / 2 ^ e
    let r := a % 2 ^ e
    let h := 2 ^ (e - 1)
    if r < h then q * 2 ^ e
    else if h < r then (q + 1) * 2 ^ e
    else if q % 2 = 0 then q * 2 ^ e
    else (q + 1) * 2 ^ e

/-- The double nearest to the integer `n`; rounding is symmetric in the sign. -/
def roundDouble (n : Int) : Int :=
  if 0 ≤ n then (roundNat n.toNat : Int) else -(roundNat (-n).toNat : Int)

/-- JavaScript `a - b` on integer-valued doubles. -/
def numSub (a b : Int) : Int := roundDouble (a - b)

/-- JavaScript `a + b` on integer-valued doubles. -/
def numAdd (a b : Int) : Int := roundDouble (a + b)

/-! ## Data model -/

/-- Document identifier, written as its 24 hexadecimal digits. -/
structure ObjectId where
  hex : String
deriving DecidableEq, Repr

/-- Product document, `productSchema` of `server/models/Product.js`. -/
structure Product where
  _id : ObjectId
  name : String
  description : String
  price : Int
  discount : Int
  stock : Int
  category : String
  tags : List String
  images : List String
  createdAt : Nat
deriving DecidableEq, Repr

/-- Buyer sub-document of an order. -/
structure Buyer where
  name : String
  phone : String
  address : String
deriving DecidableEq, Repr

/-- Order document, `orderSchema` of `server/models/Order.js`; `productId` is
declared `String` there and keeps the string sent by the client. -/
structure Order where
  _id : ObjectId
  productId : String
  productName : String
  buyer : Buyer
  qty : Int
  subtotal : Int
  gst : Int
  delivery : Int
  total : Int
  status : String
  createdAt : Nat
  updatedAt : Option Nat
deriving DecidableEq, Repr

/-- The two collections the order routes read and write. -/
structure Store where
  products : List Product
  orders : List Order
deriving DecidableEq, Repr

/-- Outcome of `findById`: the cast of the identifier failed and the call
throws, or the query ran and returned a document or `null`. -/
inductive Fetched (α : Type) where
  | castError
  | doc (d : Option α)
deriving DecidableEq, Repr

/-- The product document stored under an identifier, if any. -/
def Product.find (ps : List Product) (id : ObjectId) : Option Product :=
  ps.find? (fun p => p._id == id)

/-- `Product.findById(id)`: cast the string, then query the collection. -/
def Product.findById (cast : String → Option ObjectId) (ps : List Product)
    (id : String) : Fetched Product :=
  match cast id with
  | none => .castError
  | some oid => .doc (Product.find ps oid)

/-- `product.save()` on a fetched product: the stored document with the same
identifier is overwritten. -/
def Product.save (ps : List Product) (p : Product) : List Product :=
  ps.map (fun x => if x._id = p._id then p else x)

/-- The order document stored under an identifier, if any. -/
def Order.find (os : List Order) (id : ObjectId) : Option Order :=
  os.find? (fun o => o._id == id)

/-- `Order.findById(id)`: cast the string, then query the collection. -/
def Order.findById (cast : String → Option ObjectId) (os : List Order)
    (id : String) : Fetched Order :=
  match cast id with
  | none => .castError
  | some oid => .doc (Order.find os oid)

/-- `order.save()` on a fetched order: the stored document with the same
identifier is overwritten. -/
def Order.save (os : List Order) (o : Order) : List Order :=
  os.map (fun x => if x._id = o._id then o else x)

/-- `order.save()` on a document built with `new Order(...)`: it is added to
the collection. -/
def Order.insert (os : List Order) (o : Order) : List Order :=
  os ++ [o]

/-! ## HTTP layer -/

/-- JSON body of `POST /api/orders`. -/
structure OrderBody where
  productId : String
  buyer : Buyer
  qty : Int
  subtotal : Int
  gst : Int
  delivery : Int
  total : Int
deriving DecidableEq, Repr

/-- JSON payload of a response. -/
inductive Body where
  | msg (m : String)
  | order (o : Order)
  | updated (m : String) (o : Order)
deriving DecidableEq, Repr

/-- An HTTP response: status code and JSON payload. -/
structure Response where
  status : Nat
  body : Body
deriving DecidableEq, Repr

/-- Handler of `POST /api/orders` (`server.js`, lines 172-203).
`newId` is the identifier the driver gives to the new order, `now` the value
of `Date.now` used for `createdAt`.  A failing cast of `productId` throws
before anything is written and is answered by the `catch` branch. -/
def postOrders (cast : String → Option ObjectId) (st : Store) (newId : ObjectId)
    (now : Nat) (body : OrderBody) : Response × Store :=
  match Product.findById cast st.products body.productId with
  | .castError => (⟨500, .msg "Order failed"⟩, st)
  | .doc none => (⟨400, .msg "Insufficient stock"⟩, st)
  | .doc (some product) =>
    if product.stock < body.qty then
      (⟨400, .msg "Insufficient stock"⟩, st)
    else
      let order : Order :=
        { _id := newId
          productId := body.productId
          productName := product.name
          buyer := body.buyer
          qty := body.qty
          subtotal := body.subtotal
          gst := body.gst
          delivery := body.delivery
          total := body.total
          status := "Pending"
          createdAt := now
          updatedAt := none }
      let orders := Order.insert st.orders order
      let product := { product with stock := numSub product.stock body.qty }
      let products := Product.save st.products product
      (⟨200, .order order⟩, ⟨products, orders⟩)

/-- Handler of `PUT /api/admin/orders/:id` (`server.js`, lines 216-238), run
after the `auth` middleware has let the request through.  `id` is
`req.params.id`, `status` is `req.body.status`, `now` is `new Date()`.  A
failing cast, of `id` or of the order's `productId`, throws before anything
is written and is answered by the `catch` branch. -/
def putAdminOrders (cast : String → Option ObjectId) (st : Store) (id : String)
    (status : String) (now : Nat) : Response × Store :=
  match Order.findById cast st.orders id with
  | .castError => (⟨500, .msg "Error"⟩, st)
  | .doc none => (⟨404, .msg "Order not found"⟩, st)
  | .doc (some order) =>
    let oldStatus := order.status
    let order := { order with status := status, updatedAt := some now }
    if status = "Rejected" ∧ oldStatus = "Pending" then
      match Product.findById cast st.products order.productId with
      | .castError => (⟨500, .msg "Error"⟩, st)
      | .doc (some product) =>
        (⟨200, .updated "Updated!" order⟩,
          ⟨Product.save st.products
              { product with stock := numAdd product.stock order.qty },
            Order.save st.orders order⟩)
      | .doc none =>
        (⟨200, .updated "Updated!" order⟩, ⟨st.products, Order.save st.orders order⟩)
    else
      (⟨200, .updated "Updated!" order⟩, ⟨st.products, Order.save st.orders order⟩)

/-! ## Sequences of requests -/

/-- A request to one of the two order routes. -/
inductive Request where
  | place (newId : ObjectId) (now : Nat) (body : OrderBody)
  | setStatus (id : String) (status : String) (now : Nat)
deriving DecidableEq, Repr

/-- Dispatch of one request to its handler. -/
def handle (cast : String → Option ObjectId) (st : Store) : Request → Response × Store
  | .place newId now body => postOrders cast st newId now body
  | .setStatus id status now => putAdminOrders cast st id status now

/-- Store after a sequence of requests handled one at a time, in order. -/
def run (cast : String → Option ObjectId) (st : Store) : List Request → Store
  | [] => st
  | r :: rs => run cast (handle cast st r).2 rs

/-- The quantity asked for by a request is not negative (status changes carry
no quantity). -/
def Request.qtyNonneg : Request → Prop
  | .place _ _ body => 0 ≤ body.qty
  | .setStatus _ _ _ => True

instance Request.decQtyNonneg : DecidablePred Request.qtyNonneg := fun r =>
  match r with
  | .place _ _ body => inferInstanceAs (Decidable (0 ≤ body.qty))
  | .setStatus _ _ _ => inferInstanceAs (Decidable True)

/-- Every product has a non-negative stock. -/
def StockNonneg (st : Store) : Prop :=
  ∀ p ∈ st.products, 0 ≤ p.stock

instance StockNonneg.dec (st : Store) : Decidable (StockNonneg st) :=
  inferInstanceAs (Decidable (∀ p ∈ st.products, 0 ≤ p.stock))

/-- Every product has a non-negative stock and every stored order a
non-negative quantity. -/
def StockInv (st : Store) : Prop :=
  (∀ p ∈ st.products, 0 ≤ p.stock) ∧ (∀ o ∈ st.orders, 0 ≤ o.qty)

instance StockInv.dec (st : Store) : Decidable (StockInv st) :=
  inferInstanceAs
    (Decidable ((∀ p ∈ st.products, 0 ≤ p.stock) ∧ (∀ o ∈ st.orders, 0 ≤ o.qty)))

/-- Stock of the product stored under the given identifier, if there is one. -/
def stockOf (st : Store) (pid : ObjectId) : Option Int :=
  (Product.find st.products pid).map (fun p => p.stock)

/-- The status changes `ts`, all sent for the order identifier `id`, as
requests. -/
def statusRequests (id : String) (ts : List (String × Nat)) : List Request :=
  ts.map (fun t => Request.setStatus id t.1 t.2)

/-! ## Concrete identifiers and stores used in the examples -/

/-- A hexadecimal digit, in either case. -/
def isHexDigit (c : Char) : Bool :=
  (48 ≤ c.toNat ∧ c.toNat ≤ 57) ∨ (97 ≤ c.toNat ∧ c.toNat ≤ 102) ∨
    (65 ≤ c.toNat ∧ c.toNat ≤ 70)

/-- The identifier cast used in the examples: a string of 24 hexadecimal
digits denotes the identifier with these digits in lower case, any other
string does not cast. -/
def hexObjectId (s : String) : Option ObjectId :=
  if s.data.length = 24 ∧ s.data.all isHexDigit then
    some ⟨String.mk (s.data.map Char.toLower)⟩
  else none

/-- Identifier string of the product of the examples. -/
def pidA : String := "64b7f0c2a1d3e4f5a6b7c8d9"

/-- A well-formed identifier string under which no example product is stored. -/
def pidGone : String := "0123456789abcdef01234567"

/-- Identifier string of the first order of the examples. -/
def oidA : String := "75c8a1d3b2e4f5a6b7c8d9e0"

/-- Identifier string of the second order of the examples. -/
def oidB : String := "75c8a1d3b2e4f5a6b7c8d9e1"

/-- A product with the given identifier, name and stock. -/
def mkProduct (id name : String) (stock : Int) : Product :=
  { _id := ⟨id⟩, name := name, description := "", price := 100, discount := 0,
    stock := stock, category := "", tags := [], images := [], createdAt := 0 }

/-- A buyer. -/
def aBuyer : Buyer := { name := "Ali", phone := "0300", address := "Lahore" }

/-- An order body for the given product and quantity. -/
def mkBody (pid : String) (qty : Int) : OrderBody :=
  { productId := pid, buyer := aBuyer, qty := qty, subtotal := 0, gst := 0,
    delivery := 0, total := 0 }

/-- A stored order for the given product, quantity and status. -/
def mkOrder (id pid : String) (qty : Int) (status : String) : Order :=
  { _id := ⟨id⟩, productId := pid, productName := "Achar", buyer := aBuyer,
    qty := qty, subtotal := 0, gst := 0, delivery := 0, total := 0,
    status := status, createdAt := 0, updatedAt := none }

/-! ## Rounding lemmas -/

/-- The halving count is large enough: what is left of `a` fits in 53 bits,
as soon as `a` is below `2 ^ 53 * 2 ^ fuel`. -/
theorem lostBits_spec (fuel a : Nat) (h : a < 2 ^ 53 * 2 ^ fuel) :
    a / 2 ^ lostBits fuel a < 2 ^ 53 := by
  induction fuel generalizing a with
  | zero => simpa [lostBits] using h
  | succ k ih =>
    unfold lostBits
    by_cases hlt : a < 2 ^ 53
    · rw [if_pos hlt]
      simpa using hlt
    · rw [if_neg hlt]
      have h2 : a / 2 < 2 ^ 53 * 2 ^ k := by
        rw [pow_succ] at h
        omega
      have := ih (a / 2) h2
      rwa [pow_succ', ← Nat.div_div_eq_div_mul]

/-- With `a` itself as bound on the halvings, the significand fits in 53 bits. -/
theorem lostBits_self (a : Nat) : a / 2 ^ lostBits a a < 2 ^ 53 := by
  apply lostBits_spec
  have h1 : a < 2 ^ a := Nat.lt_two_pow a
  have h2 : 0 < 2 ^ 53 := by norm_num
  calc a < 2 ^ a := h1
    _ ≤ 2 ^ 53 * 2 ^ a := Nat.le_mul_of_pos_left _ h2

/-- The halving stops as soon as 53 bits are enough: the significand that is
left keeps its leading bit. -/
theorem lostBits_leading (fuel a : Nat) (h : 2 ^ 52 ≤ a) :
    2 ^ 52 ≤ a / 2 ^ lostBits fuel a := by
  induction fuel generalizing a with
  | zero => simpa [lostBits] using h
  | succ k ih =>
    unfold lostBits
    by_cases hlt : a < 2 ^ 53
    · rw [if_pos hlt]
      simpa using h
    · rw [if_neg hlt]
      have h2 : 2 ^ 52 ≤ a / 2 := by omega
      have := ih (a / 2) h2
      rwa [pow_succ' 2 (lostBits k (a / 2)), ← Nat.div_div_eq_div_mul]

/-- Integers of magnitude at most `Number.MAX_SAFE_INTEGER` are doubles. -/
theorem roundDouble_of_safe (n : Int) (hlo : -maxSafeInteger ≤ n)
    (hhi : n ≤ maxSafeInteger) : roundDouble n = n := by
  unfold maxSafeInteger at hlo hhi
  unfold roundDouble roundNat
  by_cases h0 : 0 ≤ n
  · have h : n.toNat < 2 ^ 53 := by omega
    rw [if_pos h0, if_pos h]
    omega
  · have h : (-n).toNat < 2 ^ 53 := by omega
    rw [if_neg h0, if_pos h]
    omega

/-- Rounding a non-negative integer gives a non-negative integer. -/
theorem roundDouble_nonneg (n : Int) (h : 0 ≤ n) : 0 ≤ roundDouble n := by
  unfold roundDouble
  rw [if_pos h]
  exact Int.natCast_nonneg _

/-! ## Lookup and update lemmas for the collections -/

theorem product_find_id {ps : List Product} {id : ObjectId} {p : Product}
    (h : Product.find ps id = some p) : p._id = id := by
  have := List.find?_some h
  simpa using this

theorem product_find_mem {ps : List Product} {id : ObjectId} {p : Product}
    (h : Product.find ps id = some p) : p ∈ ps :=
  List.mem_of_find?_eq_some h

theorem product_mem_save {ps : List Product} {p x : Product}
    (h : x ∈ Product.save ps p) : x = p ∨ x ∈ ps := by
  unfold Product.save at h
  obtain ⟨y, hy, rfl⟩ := List.mem_map.mp h
  by_cases hc : y._id = p._id
  · left; simp [hc]
  · right; simpa [hc] using hy

theorem product_mem_save_of_ne {ps : List Product} {p x : Product}
    (hx : x ∈ ps) (hne : x._id ≠ p._id) : x ∈ Product.save ps p := by
  unfold Product.save
  exact List.mem_map.mpr ⟨x, hx, by simp [hne]⟩

theorem product_save_ids (ps : List Product) (p : Product) :
    (Product.save ps p).map (fun x => x._id) = ps.map (fun x => x._id) := by
  unfold Product.save
  induction ps with
  | nil => rfl
  | cons a as ih =>
    by_cases hc : a._id = p._id
    · simpa [hc] using ih
    · simpa [hc] using ih

theorem product_find_save_of_ne (ps : List Product) (p : Product) {id : ObjectId}
    (hne : id ≠ p._id) :
    Product.find (Product.save ps p) id = Product.find ps id := by
  unfold Product.find Product.save
  induction ps with
  | nil => rfl
  | cons a as ih =>
    by_cases hc : a._id = p._id
    · have h1 : ¬ (p._id = id) := fun h => hne h.symm
      have h2 : ¬ (a._id = id) := fun h => hne (h.symm.trans hc)
      simpa [List.find?_cons, hc, h1, h2] using ih
    · by_cases hd : a._id = id
      · subst hd
        simp [List.find?_cons, hc]
      · simpa [List.find?_cons, hc, hd] using ih

theorem product_find_save_self (ps : List Product) (p p0 : Product)
    (h : Product.find ps p._id = some p0) :
    Product.find (Product.save ps p) p._id = some p := by
  unfold Product.find Product.save at *
  induction ps with
  | nil => simp at h
  | cons a as ih =>
    by_cases hc : a._id = p._id
    · simp [List.find?_cons, hc]
    · rw [List.find?_cons_of_neg _ (by simpa using hc)] at h
      simpa [List.find?_cons, hc] using ih h

/-- A successful `Product.findById` is a successful cast followed by a hit
under the cast identifier, which is the identifier of the document. -/
theorem product_findById_doc {cast : String → Option ObjectId} {ps : List Product}
    {s : String} {p : Product} (h : Product.findById cast ps s = .doc (some p)) :
    cast s = some p._id ∧ Product.find ps p._id = some p := by
  unfold Product.findById at h
  cases hc : cast s with
  | none => simp [hc] at h
  | some oid =>
    simp only [hc, Fetched.doc.injEq] at h
    have := product_find_id h
    subst this
    exact ⟨rfl, h⟩

theorem order_find_id {os : List Order} {id : ObjectId} {o : Order}
    (h : Order.find os id = some o) : o._id = id := by
  have := List.find?_some h
  simpa using this

theorem order_find_mem {os : List Order} {id : ObjectId} {o : Order}
    (h : Order.find os id = some o) : o ∈ os :=
  List.mem_of_find?_eq_some h

theorem order_mem_save {os : List Order} {o x : Order}
    (h : x ∈ Order.save os o) : x = o ∨ x ∈ os := by
  unfold Order.save at h
  obtain ⟨y, hy, rfl⟩ := List.mem_map.mp h
  by_cases hc : y._id = o._id
  · left; simp [hc]
  · right; simpa [hc] using hy

theorem order_find_save_self (os : List Order) (o o0 : Order)
    (h : Order.find os o._id = some o0) :
    Order.find (Order.save os o) o._id = some o := by
  unfold Order.find Order.save at *
  induction os with
  | nil => simp at h
  | cons a as ih =>
    by_cases hc : a._id = o._id
    · simp [List.find?_cons, hc]
    · rw [List.find?_cons_of_neg _ (by simpa using hc)] at h
      simpa [List.find?_cons, hc] using ih h

theorem order_find_insert_fresh (os : List Order) (o : Order)
    (h : Order.find os o._id = none) :
    Order.find (Order.insert os o) o._id = some o := by
  unfold Order.find Order.insert at *
  simp [List.find?_append, h]

/-- A successful `Order.findById` is a successful cast followed by a hit under
the cast identifier, which is the identifier of the document. -/
theorem order_findById_doc {cast : String → Option ObjectId} {os : List Order}
    {s : String} {o : Order} (h : Order.findById cast os s = .doc (some o)) :
    cast s = some o._id ∧ Order.find os o._id = some o := by
  unfold Order.findById at h
  cases hc : cast s with
  | none => simp [hc] at h
  | some oid =>
    simp only [hc, Fetched.doc.injEq] at h
    have := order_find_id h
    subst this
    exact ⟨rfl, h⟩

/-! ## Order placement -/

/-- Store and response after a placement that passes the stock check: the
order is appended, and the product is saved with the rounded difference. -/
theorem postOrders_lookup (cast : String → Option ObjectId) (st : Store)
    (newId : ObjectId) (now : Nat) (body : OrderBody) (p : Product)
    (hp : Product.findById cast st.products body.productId = .doc (some p))
    (hle : body.qty ≤ p.stock) :
    ∃ order : Order,
      (postOrders cast st newId now body).1 = ⟨200, .order order⟩ ∧
      order._id = newId ∧ order.status = "Pending" ∧ order.qty = body.qty ∧
      order.productName = p.name ∧ order.productId = body.productId ∧
      (postOrders cast st newId now body).2.orders = st.orders ++ [order] ∧
      (postOrders cast st newId now body).2.products
        = Product.save st.products { p with stock := numSub p.stock body.qty } ∧
      Product.findById cast (postOrders cast st newId now body).2.products
          body.productId
        = .doc (some { p with stock := numSub p.stock body.qty }) := by
  obtain ⟨hc, hf⟩ := product_findById_doc hp
  have hlt : ¬ p.stock < body.qty := not_lt.mpr hle
  simp only [postOrders, hp, hlt, if_false]
  refine ⟨_, rfl, rfl, rfl, rfl, rfl, rfl, rfl, trivial, ?_⟩
  have h := product_find_save_self st.products
    { p with stock := numSub p.stock body.qty } p hf
  simp only [Product.findById, hc]
  exact congrArg Fetched.doc h

/-- Counterexample to C1 as stated. With stock 9007199254740994 an order of 1
is accepted, and the stock stored afterwards is 9007199254740992, not
9007199254740993: the subtraction is rounded to the nearest double. -/
theorem postOrders_rounds_large_stock :
    Product.findById hexObjectId [mkProduct pidA "Achar" 9007199254740994] pidA
        = .doc (some (mkProduct pidA "Achar" 9007199254740994)) ∧
      (0 : Int) < 1 ∧ (1 : Int) ≤ 9007199254740994 ∧
      (postOrders hexObjectId ⟨[mkProduct pidA "Achar" 9007199254740994], []⟩
          ⟨oidA⟩ 1 (mkBody pidA 1)).1.status = 200 ∧
      stockOf (postOrders hexObjectId ⟨[mkProduct pidA "Achar" 9007199254740994], []⟩
          ⟨oidA⟩ 1 (mkBody pidA 1)).2 ⟨pidA⟩ = some 9007199254740992 ∧
      (9007199254740992 : Int) ≠ 9007199254740994 - 1 := by
  decide

/-- C1, as the code has it. Placing an order of quantity `Q` with `0 < Q ≤ S`
for a product found with stock `S`, `S` at most `Number.MAX_SAFE_INTEGER`,
answers 200 with the new order; that order has status "Pending", the requested
quantity and the product's current name, it is the one order added to the
collection, the product's stock becomes `S - Q`, and the other products are
untouched. -/
theorem postOrders_success (cast : String → Option ObjectId) (st : Store)
    (newId : ObjectId) (now : Nat) (body : OrderBody) (p : Product)
    (hp : Product.findById cast st.products body.productId = .doc (some p))
    (hpos : 0 < body.qty) (hle : body.qty ≤ p.stock)
    (hsafe : p.stock ≤ maxSafeInteger) :
    ∃ order : Order,
      (postOrders cast st newId now body).1 = ⟨200, .order order⟩ ∧
      order._id = newId ∧ order.status = "Pending" ∧ order.qty = body.qty ∧
      order.productName = p.name ∧ order.productId = body.productId ∧
      (postOrders cast st newId now body).2.orders = st.orders ++ [order] ∧
      Product.findById cast (postOrders cast st newId now body).2.products
          body.productId
        = .doc (some { p with stock := p.stock - body.qty }) ∧
      (∀ id, id ≠ p._id →
        Product.find (postOrders cast st newId now body).2.products id
          = Product.find st.products id) ∧
      (∀ x ∈ st.products, x._id ≠ p._id →
        x ∈ (postOrders cast st newId now body).2.products) ∧
      (postOrders cast st newId now body).2.products.map (fun x => x._id)
        = st.products.map (fun x => x._id) := by
  obtain ⟨order, h1, h2, h3, h4, h5, h6, h7, h8, h9⟩ :=
    postOrders_lookup cast st newId now body p hp hle
  have hexact : numSub p.stock body.qty = p.stock - body.qty := by
    unfold numSub
    apply roundDouble_of_safe
    · unfold maxSafeInteger; omega
    · omega
  rw [hexact] at h8 h9
  refine ⟨order, h1, h2, h3, h4, h5, h6, h7, h9, ?_, ?_, ?_⟩
  · intro id hne
    rw [h8]
    exact product_find_save_of_ne _ _ hne
  · intro x hx hne
    rw [h8]
    exact product_mem_save_of_ne hx hne
  · rw [h8]
    exact product_save_ids _ _

/-- Witness of the amended C1: stock 10, quantity 3. -/
theorem postOrders_success_witness :
    ∃ order : Order,
      (postOrders hexObjectId ⟨[mkProduct pidA "Achar" 10], []⟩ ⟨oidA⟩ 5
          (mkBody pidA 3)).1 = ⟨200, .order order⟩ ∧
      order._id = ⟨oidA⟩ ∧ order.status = "Pending" ∧ order.qty = 3 ∧
      order.productName = "Achar" ∧ order.productId = pidA ∧
      (postOrders hexObjectId ⟨[mkProduct pidA "Achar" 10], []⟩ ⟨oidA⟩ 5
          (mkBody pidA 3)).2.orders = [] ++ [order] ∧
      Product.findById hexObjectId
          (postOrders hexObjectId ⟨[mkProduct pidA "Achar" 10], []⟩ ⟨oidA⟩ 5
            (mkBody pidA 3)).2.products pidA
        = .doc (some (mkProduct pidA "Achar" 7)) :=
  let ⟨o, h1, h2, h3, h4, h5, h6, h7, h8, _⟩ :=
    postOrders_success hexObjectId ⟨[mkProduct pidA "Achar" 10], []⟩ ⟨oidA⟩ 5
      (mkBody pidA 3) (mkProduct pidA "Achar" 10)
      (by decide) (by decide) (by decide) (by decide)
  ⟨o, h1, h2, h3, h4, h5, h6, h7, h8⟩

/-- C2. Asking for more than the stock of the product found answers 400 with
the message "Insufficient stock" and leaves the whole store as it was: no
order is added and no product is changed. -/
theorem postOrders_insufficient (cast : String → Option ObjectId) (st : Store)
    (newId : ObjectId) (now : Nat) (body : OrderBody) (p : Product)
    (hp : Product.findById cast st.products body.productId = .doc (some p))
    (hgt : p.stock < body.qty) :
    postOrders cast st newId now body = (⟨400, .msg "Insufficient stock"⟩, st) := by
  simp [postOrders, hp, hgt]

/-- Witness of C2: stock 2, quantity 3 is turned down and the stock stays 2. -/
theorem postOrders_insufficient_witness :
    postOrders hexObjectId ⟨[mkProduct pidA "Achar" 2], []⟩ ⟨oidA⟩ 5 (mkBody pidA 3)
        = (⟨400, .msg "Insufficient stock"⟩, ⟨[mkProduct pidA "Achar" 2], []⟩) ∧
      stockOf (postOrders hexObjectId ⟨[mkProduct pidA "Achar" 2], []⟩ ⟨oidA⟩ 5
        (mkBody pidA 3)).2 ⟨pidA⟩ = some 2 :=
  ⟨postOrders_insufficient hexObjectId ⟨[mkProduct pidA "Achar" 2], []⟩ ⟨oidA⟩ 5
      (mkBody pidA 3) (mkProduct pidA "Achar" 2) (by decide) (by decide),
   by decide⟩

/-- C8, as the code has it. A request whose `productId` leads to no stored
product fails and leaves the store as it was.  When the string casts to an
identifier the answer is the one given to a request exceeding the stock, 400
with the message "Insufficient stock"; when it does not cast the answer is 500
with the message "Order failed". -/
theorem postOrders_unknown_product (cast : String → Option ObjectId) (st : Store)
    (newId : ObjectId) (now : Nat) (body : OrderBody)
    (hno : ∀ p ∈ st.products, cast body.productId ≠ some p._id) :
    (postOrders cast st newId now body).2 = st ∧
      (cast body.productId ≠ none →
        (postOrders cast st newId now body).1 = ⟨400, .msg "Insufficient stock"⟩) ∧
      (cast body.productId = none →
        (postOrders cast st newId now body).1 = ⟨500, .msg "Order failed"⟩) := by
  cases hc : cast body.productId with
  | none =>
    have hf : Product.findById cast st.products body.productId = .castError := by
      simp [Product.findById, hc]
    exact ⟨by simp [postOrders, hf], fun h => absurd rfl h,
      fun _ => by simp [postOrders, hf]⟩
  | some oid =>
    have hfind : Product.find st.products oid = none := by
      cases hq : Product.find st.products oid with
      | none => rfl
      | some p =>
        have hid : p._id = oid := product_find_id hq
        exact absurd (by rw [hc, hid]) (hno p (product_find_mem hq))
    have hf : Product.findById cast st.products body.productId = .doc none := by
      simp [Product.findById, hc, hfind]
    exact ⟨by simp [postOrders, hf], fun _ => by simp [postOrders, hf],
      fun h => by simp at h⟩

/-- Witness of the amended C8: a well-formed identifier under which nothing is
stored, and a string that is not an identifier. -/
theorem postOrders_unknown_product_witness :
    ((postOrders hexObjectId ⟨[mkProduct pidA "Achar" 2], []⟩ ⟨oidA⟩ 5
          (mkBody pidGone 1)).2 = ⟨[mkProduct pidA "Achar" 2], []⟩ ∧
      (postOrders hexObjectId ⟨[mkProduct pidA "Achar" 2], []⟩ ⟨oidA⟩ 5
          (mkBody pidGone 1)).1 = ⟨400, .msg "Insufficient stock"⟩) ∧
    ((postOrders hexObjectId ⟨[mkProduct pidA "Achar" 2], []⟩ ⟨oidA⟩ 5
          (mkBody "zz" 1)).2 = ⟨[mkProduct pidA "Achar" 2], []⟩ ∧
      (postOrders hexObjectId ⟨[mkProduct pidA "Achar" 2], []⟩ ⟨oidA⟩ 5
          (mkBody "zz" 1)).1 = ⟨500, .msg "Order failed"⟩) :=
  let h1 := postOrders_unknown_product hexObjectId ⟨[mkProduct pidA "Achar" 2], []⟩
    ⟨oidA⟩ 5 (mkBody pidGone 1) (by decide)
  let h2 := postOrders_unknown_product hexObjectId ⟨[mkProduct pidA "Achar" 2], []⟩
    ⟨oidA⟩ 5 (mkBody "zz" 1) (by decide)
  ⟨⟨h1.1, h1.2.1 (by decide)⟩, ⟨h2.1, h2.2.2 (by decide)⟩⟩

/-- Counterexample to C8 as stated. Nothing is stored under the well-formed
identifier `pidGone`, and the product `pidA` has stock 2: the order for the
absent product and the order of 3 for `pidA` receive the same response, 400
"Insufficient stock", so the response for an unknown product carries no error
kind of its own. -/
theorem unknown_product_same_response :
    Product.findById hexObjectId [mkProduct pidA "Achar" 2] pidGone = .doc none ∧
    (postOrders hexObjectId ⟨[mkProduct pidA "Achar" 2], []⟩ ⟨oidA⟩ 5
        (mkBody pidGone 1)).1 = ⟨400, .msg "Insufficient stock"⟩ ∧
    (postOrders hexObjectId ⟨[mkProduct pidA "Achar" 2], []⟩ ⟨oidA⟩ 5
        (mkBody pidGone 1)).1
      = (postOrders hexObjectId ⟨[mkProduct pidA "Achar" 2], []⟩ ⟨oidA⟩ 5
          (mkBody pidA 3)).1 := by
  decide

/-! ## Order status transition -/

/-- Effect of a status change on an order that is found and whose product is
found: the answer is 200 with the updated order, the order gets the new status
and time stamp, and the product is saved with the rounded sum of its stock and
the order's quantity exactly when the change is "Pending" to "Rejected". -/
theorem putAdminOrders_found (cast : String → Option ObjectId) (st : Store)
    (sid t : String) (now : Nat) (o : Order) (p : Product)
    (ho : Order.findById cast st.orders sid = .doc (some o))
    (hp : Product.findById cast st.products o.productId = .doc (some p)) :
    (putAdminOrders cast st sid t now).1
        = ⟨200, .updated "Updated!" { o with status := t, updatedAt := some now }⟩ ∧
      Order.findById cast (putAdminOrders cast st sid t now).2.orders sid
        = .doc (some { o with status := t, updatedAt := some now }) ∧
      (putAdminOrders cast st sid t now).2.products
        = (if t = "Rejected" ∧ o.status = "Pending" then
            Product.save st.products { p with stock := numAdd p.stock o.qty }
          else st.products) ∧
      Product.findById cast (putAdminOrders cast st sid t now).2.products o.productId
        = .doc (some { p with stock :=
            if t = "Rejected" ∧ o.status = "Pending" then numAdd p.stock o.qty
            else p.stock }) := by
  obtain ⟨hoc, hof⟩ := order_findById_doc ho
  obtain ⟨hpc, hpf⟩ := product_findById_doc hp
  have hos := order_find_save_self st.orders
    { o with status := t, updatedAt := some now } o hof
  have hos' : Order.findById cast
      (Order.save st.orders { o with status := t, updatedAt := some now }) sid
      = .doc (some { o with status := t, updatedAt := some now }) := by
    simp only [Order.findById, hoc]
    exact congrArg Fetched.doc hos
  by_cases hc : t = "Rejected" ∧ o.status = "Pending"
  · have hps := product_find_save_self st.products
      { p with stock := numAdd p.stock o.qty } p hpf
    have hres : putAdminOrders cast st sid t now
        = (⟨200, .updated "Updated!" { o with status := t, updatedAt := some now }⟩,
            ⟨Product.save st.products { p with stock := numAdd p.stock o.qty },
              Order.save st.orders { o with status := t, updatedAt := some now }⟩) := by
      simp [putAdminOrders, ho, hp, hc]
    rw [hres]
    refine ⟨rfl, hos', by simp [hc], ?_⟩
    simp only [Product.findById, hpc, hc, and_self, if_true]
    exact congrArg Fetched.doc hps
  · have hres : putAdminOrders cast st sid t now
        = (⟨200, .updated "Updated!" { o with status := t, updatedAt := some now }⟩,
            ⟨st.products,
              Order.save st.orders { o with status := t, updatedAt := some now }⟩) := by
      simp [putAdminOrders, ho, hc]
    rw [hres]
    refine ⟨rfl, hos', by simp [hc], ?_⟩
    simp only [hc, if_false]
    exact hp

/-- Counterexample to C3 as stated. With stock 9007199254740992 a pending
order of 1 is rejected, and the stock stored afterwards is still
9007199254740992, not 9007199254740993: the addition is rounded to the nearest
double. -/
theorem putAdminOrders_rounds_large_stock :
    Order.findById hexObjectId [mkOrder oidA pidA 1 "Pending"] oidA
        = .doc (some (mkOrder oidA pidA 1 "Pending")) ∧
      Product.findById hexObjectId [mkProduct pidA "Achar" 9007199254740992] pidA
        = .doc (some (mkProduct pidA "Achar" 9007199254740992)) ∧
      (putAdminOrders hexObjectId
          ⟨[mkProduct pidA "Achar" 9007199254740992], [mkOrder oidA pidA 1 "Pending"]⟩
          oidA "Rejected" 9).1.status = 200 ∧
      stockOf (putAdminOrders hexObjectId
          ⟨[mkProduct pidA "Achar" 9007199254740992], [mkOrder oidA pidA 1 "Pending"]⟩
          oidA "Rejected" 9).2 ⟨pidA⟩ = some 9007199254740992 ∧
      (9007199254740992 : Int) ≠ 9007199254740992 + 1 := by
  decide

/-- C3, as the code has it. Changing a "Pending" order whose product is in the
store to "Rejected", with `S + q` of magnitude at most
`Number.MAX_SAFE_INTEGER`, answers 200 with the updated order, stores the
order with status "Rejected", makes the product's stock `S + q` and leaves the
other products untouched. -/
theorem putAdminOrders_pending_rejected (cast : String → Option ObjectId)
    (st : Store) (sid : String) (now : Nat) (o : Order) (p : Product)
    (ho : Order.findById cast st.orders sid = .doc (some o))
    (hs : o.status = "Pending")
    (hp : Product.findById cast st.products o.productId = .doc (some p))
    (hlo : -maxSafeInteger ≤ p.stock + o.qty)
    (hhi : p.stock + o.qty ≤ maxSafeInteger) :
    (putAdminOrders cast st sid "Rejected" now).1
        = ⟨200, .updated "Updated!" { o with status := "Rejected", updatedAt := some now }⟩ ∧
      Order.findById cast (putAdminOrders cast st sid "Rejected" now).2.orders sid
        = .doc (some { o with status := "Rejected", updatedAt := some now }) ∧
      Product.findById cast (putAdminOrders cast st sid "Rejected" now).2.products
          o.productId
        = .doc (some { p with stock := p.stock + o.qty }) ∧
      (∀ id, id ≠ p._id →
        Product.find (putAdminOrders cast st sid "Rejected" now).2.products id
          = Product.find st.products id) ∧
      (∀ x ∈ st.products, x._id ≠ p._id →
        x ∈ (putAdminOrders cast st sid "Rejected" now).2.products) ∧
      (putAdminOrders cast st sid "Rejected" now).2.products.map (fun x => x._id)
        = st.products.map (fun x => x._id) := by
  obtain ⟨h1, h2, h3, h4⟩ := putAdminOrders_found cast st sid "Rejected" now o p ho hp
  have hexact : numAdd p.stock o.qty = p.stock + o.qty :=
    roundDouble_of_safe _ hlo hhi
  simp only [hs, and_self, if_true, hexact] at h3 h4
  refine ⟨h1, h2, h4, ?_, ?_, ?_⟩
  · intro id hne
    rw [h3]
    exact product_find_save_of_ne _ _ hne
  · intro x hx hne
    rw [h3]
    exact product_mem_save_of_ne hx hne
  · rw [h3]
    exact product_save_ids _ _

/-- Witness of the amended C3: a pending order of 3 on a product with stock 7. -/
theorem putAdminOrders_pending_rejected_witness :
    Order.findById hexObjectId
        (putAdminOrders hexObjectId
          ⟨[mkProduct pidA "Achar" 7], [mkOrder oidA pidA 3 "Pending"]⟩
          oidA "Rejected" 9).2.orders oidA
        = .doc (some { mkOrder oidA pidA 3 "Pending" with
                       status := "Rejected", updatedAt := some 9 }) ∧
      Product.findById hexObjectId
        (putAdminOrders hexObjectId
          ⟨[mkProduct pidA "Achar" 7], [mkOrder oidA pidA 3 "Pending"]⟩
          oidA "Rejected" 9).2.products pidA
        = .doc (some { mkProduct pidA "Achar" 7 with stock := 7 + 3 }) :=
  let h := putAdminOrders_pending_rejected hexObjectId
    ⟨[mkProduct pidA "Achar" 7], [mkOrder oidA pidA 3 "Pending"]⟩ oidA 9
    (mkOrder oidA pidA 3 "Pending") (mkProduct pidA "Achar" 7)
    (by decide) (by decide) (by decide) (by decide) (by decide)
  ⟨h.2.1, h.2.2.1⟩

/-- C4. A status change of a stored order whose previous status is not
"Pending", or whose target is not "Rejected", leaves the product collection
exactly as it was. -/
theorem putAdminOrders_no_refund (cast : String → Option ObjectId) (st : Store)
    (sid t : String) (now : Nat) (o : Order)
    (ho : Order.findById cast st.orders sid = .doc (some o))
    (h : o.status ≠ "Pending" ∨ t ≠ "Rejected") :
    (putAdminOrders cast st sid t now).2.products = st.products := by
  have hc : ¬ (t = "Rejected" ∧ o.status = "Pending") := by
    rintro ⟨h1, h2⟩
    rcases h with h | h
    · exact h h2
    · exact h h1
  simp [putAdminOrders, ho, hc]

/-- Witness of C4: rejecting an order that is already "Rejected". -/
theorem putAdminOrders_no_refund_witness :
    (putAdminOrders hexObjectId
        ⟨[mkProduct pidA "Achar" 7], [mkOrder oidA pidA 3 "Rejected"]⟩
        oidA "Rejected" 9).2.products = [mkProduct pidA "Achar" 7] :=
  putAdminOrders_no_refund hexObjectId
    ⟨[mkProduct pidA "Achar" 7], [mkOrder oidA pidA 3 "Rejected"]⟩ oidA "Rejected" 9
    (mkOrder oidA pidA 3 "Rejected") (by decide) (Or.inl (by decide))

/-- C9. Rejecting a "Pending" order whose product is no longer in the store
still answers 200 with the updated order, stores the order with status
"Rejected" and leaves the product collection as it was. -/
theorem putAdminOrders_dangling (cast : String → Option ObjectId) (st : Store)
    (sid : String) (now : Nat) (o : Order)
    (ho : Order.findById cast st.orders sid = .doc (some o))
    (_hs : o.status = "Pending")
    (hp : Product.findById cast st.products o.productId = .doc none) :
    (putAdminOrders cast st sid "Rejected" now).1
        = ⟨200, .updated "Updated!" { o with status := "Rejected", updatedAt := some now }⟩ ∧
      Order.findById cast (putAdminOrders cast st sid "Rejected" now).2.orders sid
        = .doc (some { o with status := "Rejected", updatedAt := some now }) ∧
      (putAdminOrders cast st sid "Rejected" now).2.products = st.products := by
  obtain ⟨hoc, hof⟩ := order_findById_doc ho
  have hos := order_find_save_self st.orders
    { o with status := "Rejected", updatedAt := some now } o hof
  have hres : putAdminOrders cast st sid "Rejected" now
      = (⟨200, .updated "Updated!"
            { o with status := "Rejected", updatedAt := some now }⟩,
          ⟨st.products,
            Order.save st.orders
              { o with status := "Rejected", updatedAt := some now }⟩) := by
    by_cases hc : o.status = "Pending"
    · simp [putAdminOrders, ho, hp, hc]
    · simp [putAdminOrders, ho, hc]
  rw [hres]
  refine ⟨rfl, ?_, rfl⟩
  simp only [Order.findById, hoc]
  exact congrArg Fetched.doc hos

/-- Witness of C9: the pending order refers to a product that is not stored. -/
theorem putAdminOrders_dangling_witness :
    (putAdminOrders hexObjectId
        ⟨[mkProduct pidA "Achar" 7], [mkOrder oidA pidGone 3 "Pending"]⟩
        oidA "Rejected" 9).1
        = ⟨200, .updated "Updated!"
            { mkOrder oidA pidGone 3 "Pending" with
              status := "Rejected", updatedAt := some 9 }⟩ ∧
      Order.findById hexObjectId
        (putAdminOrders hexObjectId
          ⟨[mkProduct pidA "Achar" 7], [mkOrder oidA pidGone 3 "Pending"]⟩
          oidA "Rejected" 9).2.orders oidA
        = .doc (some { mkOrder oidA pidGone 3 "Pending" with
                       status := "Rejected", updatedAt := some 9 }) ∧
      (putAdminOrders hexObjectId
        ⟨[mkProduct pidA "Achar" 7], [mkOrder oidA pidGone 3 "Pending"]⟩
        oidA "Rejected" 9).2.products = [mkProduct pidA "Achar" 7] :=
  putAdminOrders_dangling hexObjectId
    ⟨[mkProduct pidA "Achar" 7], [mkOrder oidA pidGone 3 "Pending"]⟩ oidA 9
    (mkOrder oidA pidGone 3 "Pending") (by decide) (by decide) (by decide)

/-! ## Placing an order and rejecting it -/

/-- Counterexample to C7 as stated. With stock 9007199254740994 an order of 1
takes the stored stock to 9007199254740992, and rejecting the created order
leaves it at 9007199254740992: the stock does not return to its value before
the order. -/
theorem roundtrip_loses_large_stock :
    stockOf (run hexObjectId ⟨[mkProduct pidA "Achar" 9007199254740994], []⟩
        [.place ⟨oidA⟩ 1 (mkBody pidA 1)]) ⟨pidA⟩ = some 9007199254740992 ∧
      stockOf (run hexObjectId ⟨[mkProduct pidA "Achar" 9007199254740994], []⟩
        [.place ⟨oidA⟩ 1 (mkBody pidA 1), .setStatus oidA "Rejected" 2]) ⟨pidA⟩
        = some 9007199254740992 ∧
      (Order.find (run hexObjectId ⟨[mkProduct pidA "Achar" 9007199254740994], []⟩
        [.place ⟨oidA⟩ 1 (mkBody pidA 1), .setStatus oidA "Rejected" 2]).orders
        ⟨oidA⟩).map (fun o => o.status) = some "Rejected" ∧
      (9007199254740992 : Int) ≠ 9007199254740994 := by
  decide

/-- C7, as the code has it. With `S` at most `Number.MAX_SAFE_INTEGER`,
placing an order of `Q` (`0 < Q ≤ S`) takes the stock to `S - Q`; rejecting
the created order brings the product back to what it was, stock `S`, with the
order "Rejected"; rejecting it a second time leaves the product at stock `S`
and the order "Rejected".  The identifier given to the new order is not in
use by a stored order, and `sid` is the string form of that identifier. -/
theorem place_reject_roundtrip (cast : String → Option ObjectId) (st : Store)
    (newId : ObjectId) (sid : String) (n1 n2 n3 : Nat) (body : OrderBody)
    (p : Product)
    (hp : Product.findById cast st.products body.productId = .doc (some p))
    (hpos : 0 < body.qty) (hle : body.qty ≤ p.stock)
    (hsafe : p.stock ≤ maxSafeInteger)
    (hsid : cast sid = some newId) (hfresh : Order.find st.orders newId = none) :
    Product.findById cast (run cast st [.place newId n1 body]).products
        body.productId = .doc (some { p with stock := p.stock - body.qty }) ∧
      Product.findById cast
          (run cast st [.place newId n1 body, .setStatus sid "Rejected" n2]).products
          body.productId = .doc (some p) ∧
      (∃ o, Order.findById cast
          (run cast st [.place newId n1 body, .setStatus sid "Rejected" n2]).orders
          sid = .doc (some o) ∧ o.status = "Rejected") ∧
      Product.findById cast
          (run cast st [.place newId n1 body, .setStatus sid "Rejected" n2,
                        .setStatus sid "Rejected" n3]).products
          body.productId = .doc (some p) ∧
      (∃ o, Order.findById cast
          (run cast st [.place newId n1 body, .setStatus sid "Rejected" n2,
                        .setStatus sid "Rejected" n3]).orders
          sid = .doc (some o) ∧ o.status = "Rejected") := by
  have hmax : maxSafeInteger = 9007199254740991 := rfl
  obtain ⟨o1, _, hid, hst, hq, _, hpid, hord, _, hp1⟩ :=
    postOrders_lookup cast st newId n1 body p hp hle
  have hsub : numSub p.stock body.qty = p.stock - body.qty :=
    roundDouble_of_safe _ (by omega) (by omega)
  have hadd : numAdd (p.stock - body.qty) body.qty = p.stock := by
    unfold numAdd
    rw [roundDouble_of_safe _ (by omega) (by omega)]
    omega
  rw [hsub] at hp1
  have ho1 : Order.findById cast (postOrders cast st newId n1 body).2.orders sid
      = .doc (some o1) := by
    have h := order_find_insert_fresh st.orders o1 (by rw [hid]; exact hfresh)
    rw [hord]
    simp only [Order.findById, hsid]
    rw [hid] at h
    exact congrArg Fetched.doc h
  obtain ⟨_, ho2, _, hp2⟩ := putAdminOrders_found cast
    (postOrders cast st newId n1 body).2 sid "Rejected" n2 o1
    { p with stock := p.stock - body.qty } ho1 (by rw [hpid]; exact hp1)
  have hp2' : Product.findById cast
      (putAdminOrders cast (postOrders cast st newId n1 body).2 sid "Rejected" n2).2.products
      body.productId = .doc (some p) := by
    rw [hpid] at hp2
    rw [hp2]
    simp [hst, hq, hadd]
  obtain ⟨_, ho3, _, hp3⟩ := putAdminOrders_found cast
    (putAdminOrders cast (postOrders cast st newId n1 body).2 sid "Rejected" n2).2
    sid "Rejected" n3 { o1 with status := "Rejected", updatedAt := some n2 } p ho2
    (by simpa [hpid] using hp2')
  have hp3' : Product.findById cast
      (putAdminOrders cast
        (putAdminOrders cast (postOrders cast st newId n1 body).2 sid "Rejected" n2).2
        sid "Rejected" n3).2.products
      body.productId = .doc (some p) := by
    have h := hp3
    simp only [hpid] at h
    rw [h]
    simp
  refine ⟨?_, ?_, ?_, ?_, ?_⟩
  · simpa [run, handle] using hp1
  · simpa [run, handle] using hp2'
  · exact ⟨_, by simpa [run, handle] using ho2, rfl⟩
  · simpa [run, handle] using hp3'
  · exact ⟨_, by simpa [run, handle] using ho3, rfl⟩

/-- Witness of the amended C7: stock 10, quantity 3, giving 7, then 10, then
10. -/
theorem place_reject_roundtrip_witness :
    Product.findById hexObjectId
        (run hexObjectId ⟨[mkProduct pidA "Achar" 10], []⟩
          [.place ⟨oidA⟩ 1 (mkBody pidA 3)]).products pidA
        = .doc (some { mkProduct pidA "Achar" 10 with stock := 10 - 3 }) ∧
      Product.findById hexObjectId
          (run hexObjectId ⟨[mkProduct pidA "Achar" 10], []⟩
            [.place ⟨oidA⟩ 1 (mkBody pidA 3), .setStatus oidA "Rejected" 2]).products
          pidA = .doc (some (mkProduct pidA "Achar" 10)) ∧
      (∃ o, Order.findById hexObjectId
          (run hexObjectId ⟨[mkProduct pidA "Achar" 10], []⟩
            [.place ⟨oidA⟩ 1 (mkBody pidA 3), .setStatus oidA "Rejected" 2]).orders
          oidA = .doc (some o) ∧ o.status = "Rejected") ∧
      Product.findById hexObjectId
          (run hexObjectId ⟨[mkProduct pidA "Achar" 10], []⟩
            [.place ⟨oidA⟩ 1 (mkBody pidA 3), .setStatus oidA "Rejected" 2,
             .setStatus oidA "Rejected" 3]).products
          pidA = .doc (some (mkProduct pidA "Achar" 10)) ∧
      (∃ o, Order.findById hexObjectId
          (run hexObjectId ⟨[mkProduct pidA "Achar" 10], []⟩
            [.place ⟨oidA⟩ 1 (mkBody pidA 3), .setStatus oidA "Rejected" 2,
             .setStatus oidA "Rejected" 3]).orders
          oidA = .doc (some o) ∧ o.status = "Rejected") :=
  place_reject_roundtrip hexObjectId ⟨[mkProduct pidA "Achar" 10], []⟩ ⟨oidA⟩ oidA
    1 2 3 (mkBody pidA 3) (mkProduct pidA "Achar" 10)
    (by decide) (by decide) (by decide) (by decide) (by decide) (by decide)

/-! ## Stock invariant -/

/-- A placement asking for a non-negative quantity keeps stocks and stored
quantities non-negative. -/
theorem stockInv_postOrders (cast : String → Option ObjectId) (st : Store)
    (newId : ObjectId) (now : Nat) (body : OrderBody)
    (h : StockInv st) (hq : 0 ≤ body.qty) :
    StockInv (postOrders cast st newId now body).2 := by
  unfold postOrders
  cases hp : Product.findById cast st.products body.productId with
  | castError => exact h
  | doc d =>
    cases d with
    | none => exact h
    | some p =>
      by_cases hlt : p.stock < body.qty
      · simpa [hlt] using h
      · simp only [hlt, if_false]
        constructor
        · intro x hx
          rcases product_mem_save hx with rfl | hx
          · exact roundDouble_nonneg _ (by omega)
          · exact h.1 x hx
        · intro x hx
          rcases List.mem_append.mp hx with hx | hx
          · exact h.2 x hx
          · rw [List.mem_singleton.mp hx]
            exact hq

/-- A status change, whatever its target, keeps stocks and stored quantities
non-negative. -/
theorem stockInv_putAdminOrders (cast : String → Option ObjectId) (st : Store)
    (id t : String) (now : Nat) (h : StockInv st) :
    StockInv (putAdminOrders cast st id t now).2 := by
  unfold putAdminOrders
  cases ho : Order.findById cast st.orders id with
  | castError => exact h
  | doc d =>
    cases d with
    | none => exact h
    | some o =>
      have hoq : 0 ≤ o.qty := h.2 o (order_find_mem (order_findById_doc ho).2)
      have hord : ∀ x ∈ Order.save st.orders
          { o with status := t, updatedAt := some now }, 0 ≤ x.qty := by
        intro x hx
        rcases order_mem_save hx with rfl | hx
        · exact hoq
        · exact h.2 x hx
      by_cases hc : t = "Rejected" ∧ o.status = "Pending"
      · obtain ⟨rfl, hs⟩ := hc
        simp only [hs, and_self, if_true]
        cases hp : Product.findById cast st.products o.productId with
        | castError => exact h
        | doc d' =>
          cases d' with
          | none => exact ⟨h.1, hord⟩
          | some p =>
            refine ⟨?_, hord⟩
            intro x hx
            rcases product_mem_save hx with rfl | hx
            · have := h.1 p (product_find_mem (product_findById_doc hp).2)
              exact roundDouble_nonneg _ (by omega)
            · exact h.1 x hx
      · simp only [hc, if_false]
        exact ⟨h.1, hord⟩

/-- One request with a non-negative quantity keeps the invariant. -/
theorem stockInv_handle (cast : String → Option ObjectId) (st : Store) (r : Request)
    (h : StockInv st) (hr : r.qtyNonneg) : StockInv (handle cast st r).2 := by
  cases r with
  | place newId now body => exact stockInv_postOrders cast st newId now body h hr
  | setStatus id t now => exact stockInv_putAdminOrders cast st id t now h

/-- A sequence of requests with non-negative quantities keeps the invariant. -/
theorem stockInv_run (cast : String → Option ObjectId) (reqs : List Request)
    (st : Store) (h : StockInv st) (hq : ∀ r ∈ reqs, r.qtyNonneg) :
    StockInv (run cast st reqs) := by
  induction reqs generalizing st with
  | nil => exact h
  | cons r rs ih =>
    exact ih (handle cast st r).2
      (stockInv_handle cast st r h (hq r (List.mem_cons_self r rs)))
      (fun r' hr' => hq r' (List.mem_cons_of_mem r hr'))

/-- Counterexample to C5 as stated. One product with stock 0 and no order:
an order of -5 is accepted (stock 5), an order of 5 is accepted (stock 0), and
rejecting the first order adds -5 to the stock, which ends at -5. -/
theorem stock_negative_after_requests :
    StockNonneg ⟨[mkProduct pidA "Achar" 0], []⟩ ∧
    stockOf (run hexObjectId ⟨[mkProduct pidA "Achar" 0], []⟩
      [.place ⟨oidA⟩ 1 (mkBody pidA (-5)), .place ⟨oidB⟩ 2 (mkBody pidA 5),
       .setStatus oidA "Rejected" 3]) ⟨pidA⟩ = some (-5) ∧
    ¬ StockNonneg (run hexObjectId ⟨[mkProduct pidA "Achar" 0], []⟩
      [.place ⟨oidA⟩ 1 (mkBody pidA (-5)), .place ⟨oidB⟩ 2 (mkBody pidA 5),
       .setStatus oidA "Rejected" 3]) := by
  decide

/-- C5, as the code has it. From a store in which every stock and every stored
order quantity is non-negative, any sequence of placements asking for
non-negative quantities and of status changes leads to a store in which every
stock is non-negative. -/
theorem stock_nonneg_of_nonneg_qty (cast : String → Option ObjectId) (st : Store)
    (reqs : List Request) (h0 : StockInv st) (hq : ∀ r ∈ reqs, r.qtyNonneg) :
    StockNonneg (run cast st reqs) :=
  (stockInv_run cast reqs st h0 hq).1

/-- Witness of the amended C5: an order of 3, a rejection and a re-opening. -/
theorem stock_nonneg_of_nonneg_qty_witness :
    StockNonneg (run hexObjectId
      ⟨[mkProduct pidA "Achar" 4], [mkOrder oidB pidA 2 "Pending"]⟩
      [.place ⟨oidA⟩ 1 (mkBody pidA 3), .setStatus oidB "Rejected" 2,
       .setStatus oidB "Pending" 3]) :=
  stock_nonneg_of_nonneg_qty hexObjectId
    ⟨[mkProduct pidA "Achar" 4], [mkOrder oidB pidA 2 "Pending"]⟩
    [.place ⟨oidA⟩ 1 (mkBody pidA 3), .setStatus oidB "Rejected" 2,
     .setStatus oidB "Pending" 3]
    (by decide) (by decide)

/-- C10. The predicate "every stock and every stored order quantity is
non-negative" is kept by a single placement asking for a non-negative
quantity and by a single status change, and therefore by every sequence of
such requests handled one after the other. -/
theorem stockInv_preserved (cast : String → Option ObjectId) (st : Store)
    (r : Request) (reqs : List Request)
    (h0 : StockInv st) (hr : r.qtyNonneg) (hq : ∀ r ∈ reqs, r.qtyNonneg) :
    StockInv (handle cast st r).2 ∧ StockInv (run cast st reqs) :=
  ⟨stockInv_handle cast st r h0 hr, stockInv_run cast reqs st h0 hq⟩

/-- Witness of C10: a store with a pending order of 2, then an order of 3, a
rejection and a re-opening. -/
theorem stockInv_preserved_witness :
    StockInv (handle hexObjectId
        ⟨[mkProduct pidA "Achar" 4], [mkOrder oidB pidA 2 "Pending"]⟩
        (.setStatus oidB "Rejected" 1)).2 ∧
      StockInv (run hexObjectId
        ⟨[mkProduct pidA "Achar" 4], [mkOrder oidB pidA 2 "Pending"]⟩
        [.place ⟨oidA⟩ 1 (mkBody pidA 3), .setStatus oidB "Rejected" 2,
         .setStatus oidB "Pending" 3, .setStatus oidB "Rejected" 4]) :=
  stockInv_preserved hexObjectId
    ⟨[mkProduct pidA "Achar" 4], [mkOrder oidB pidA 2 "Pending"]⟩
    (.setStatus oidB "Rejected" 1)
    [.place ⟨oidA⟩ 1 (mkBody pidA 3), .setStatus oidB "Rejected" 2,
     .setStatus oidB "Pending" 3, .setStatus oidB "Rejected" 4]
    (by decide) (by decide) (by decide)

/-! ## Refunds over a sequence of status changes -/

/-- Once an order is not "Pending", status changes of that order that never
target "Pending" leave its product as it is. -/
theorem product_fixed_of_not_pending (cast : String → Option ObjectId)
    (sid : String) (ts : List (String × Nat)) (st : Store) (o : Order) (p : Product)
    (ho : Order.findById cast st.orders sid = .doc (some o))
    (hp : Product.findById cast st.products o.productId = .doc (some p))
    (hs : o.status ≠ "Pending") (hnp : ∀ t ∈ ts, t.1 ≠ "Pending") :
    Product.findById cast (run cast st (statusRequests sid ts)).products o.productId
      = .doc (some p) := by
  induction ts generalizing st o with
  | nil => simpa [statusRequests, run] using hp
  | cons t rest ih =>
    obtain ⟨_, ho1, _, hp1⟩ := putAdminOrders_found cast st sid t.1 t.2 o p ho hp
    have hc : ¬ (t.1 = "Rejected" ∧ o.status = "Pending") := fun h => hs h.2
    rw [if_neg hc] at hp1
    have hnext := ih (putAdminOrders cast st sid t.1 t.2).2
      { o with status := t.1, updatedAt := some t.2 } ho1 hp1
      (hnp t (List.mem_cons_self t rest))
      (fun t' ht' => hnp t' (List.mem_cons_of_mem t ht'))
    simpa [statusRequests, run, handle] using hnext

/-- Counterexample to C6 as stated. A pending order of 3 on a product with
stock 7 is rejected, set back to "Pending" and rejected again: the stock ends
at 13, the quantity has been added twice. -/
theorem refund_twice_after_reopening :
    stockOf ⟨[mkProduct pidA "Achar" 7], [mkOrder oidA pidA 3 "Pending"]⟩ ⟨pidA⟩
      = some 7 ∧
    stockOf (run hexObjectId ⟨[mkProduct pidA "Achar" 7], [mkOrder oidA pidA 3 "Pending"]⟩
      (statusRequests oidA [("Rejected", 1)])) ⟨pidA⟩ = some (7 + 3) ∧
    stockOf (run hexObjectId ⟨[mkProduct pidA "Achar" 7], [mkOrder oidA pidA 3 "Pending"]⟩
      (statusRequests oidA [("Rejected", 1), ("Pending", 2), ("Rejected", 3)])) ⟨pidA⟩
      = some (7 + 3 + 3) := by
  decide

/-- C6, as the code has it. Over a sequence of status changes of one order in
which no change targets "Pending", with `S + q` of magnitude at most
`Number.MAX_SAFE_INTEGER`, the order's product ends either as it started or
with its stock exactly one quantity higher; and if the order does not start
"Pending" (for instance because it has already been refunded) the product
ends as it started. -/
theorem refund_at_most_once (cast : String → Option ObjectId) (st : Store)
    (sid : String) (ts : List (String × Nat)) (o : Order) (p : Product)
    (ho : Order.findById cast st.orders sid = .doc (some o))
    (hp : Product.findById cast st.products o.productId = .doc (some p))
    (hnp : ∀ t ∈ ts, t.1 ≠ "Pending")
    (hlo : -maxSafeInteger ≤ p.stock + o.qty)
    (hhi : p.stock + o.qty ≤ maxSafeInteger) :
    (Product.findById cast (run cast st (statusRequests sid ts)).products o.productId
        = .doc (some p) ∨
      Product.findById cast (run cast st (statusRequests sid ts)).products o.productId
        = .doc (some { p with stock := p.stock + o.qty })) ∧
    (o.status ≠ "Pending" →
      Product.findById cast (run cast st (statusRequests sid ts)).products o.productId
        = .doc (some p)) := by
  refine ⟨?_, fun hs => product_fixed_of_not_pending cast sid ts st o p ho hp hs hnp⟩
  cases ts with
  | nil => left; simpa [statusRequests, run] using hp
  | cons t rest =>
    obtain ⟨_, ho1, _, hp1⟩ := putAdminOrders_found cast st sid t.1 t.2 o p ho hp
    have hnext := product_fixed_of_not_pending cast sid rest
      (putAdminOrders cast st sid t.1 t.2).2
      { o with status := t.1, updatedAt := some t.2 } _ ho1 hp1
      (hnp t (List.mem_cons_self t rest))
      (fun t' ht' => hnp t' (List.mem_cons_of_mem t ht'))
    have hrun : run cast st (statusRequests sid (t :: rest))
        = run cast (putAdminOrders cast st sid t.1 t.2).2 (statusRequests sid rest) := by
      simp [statusRequests, run, handle]
    have hexact : numAdd p.stock o.qty = p.stock + o.qty :=
      roundDouble_of_safe _ hlo hhi
    rw [hrun]
    by_cases hc : t.1 = "Rejected" ∧ o.status = "Pending"
    · right; simpa [hc, hexact] using hnext
    · left; simpa [hc] using hnext

/-- Witness of the amended C6: a pending order of 3 on stock 7 is rejected,
accepted and rejected again; the stock ends at 10. -/
theorem refund_at_most_once_witness :
    (Product.findById hexObjectId
        (run hexObjectId ⟨[mkProduct pidA "Achar" 7], [mkOrder oidA pidA 3 "Pending"]⟩
          (statusRequests oidA [("Rejected", 1), ("Accepted", 2), ("Rejected", 3)])).products
        pidA = .doc (some (mkProduct pidA "Achar" 7)) ∨
      Product.findById hexObjectId
        (run hexObjectId ⟨[mkProduct pidA "Achar" 7], [mkOrder oidA pidA 3 "Pending"]⟩
          (statusRequests oidA [("Rejected", 1), ("Accepted", 2), ("Rejected", 3)])).products
        pidA = .doc (some { mkProduct pidA "Achar" 7 with stock := 7 + 3 })) :=
  (refund_at_most_once hexObjectId
    ⟨[mkProduct pidA "Achar" 7], [mkOrder oidA pidA 3 "Pending"]⟩
    oidA [("Rejected", 1), ("Accepted", 2), ("Rejected", 3)]
    (mkOrder oidA pidA 3 "Pending") (mkProduct pidA "Achar" 7)
    (by decide) (by decide) (by decide) (by decide) (by decide)).1

end Zikriya
